import Mathlib

/-!
Verification of the core data model of the SEED tool, aggregation engine and
serialization layer, shallowly embedded from `src/streamlit_app.py`.

Python dictionaries are modelled as association lists over `String` keys
(first binding wins on lookup, in-place update on assignment, append on
fresh insert), scores (`Optional[float]` holding small integers 1..5 or
`None` for unknown) as `Option ℚ`, and the floating-point NaN sentinel of
`average_by_stage` as `none` in an `Option ℚ` result.
-/

/-- Lookup in a Python-dict-like association list: first binding wins. -/
def dlookup {α : Type} : List (String × α) → String → Option α
  | [], _ => none
  | (a, v) :: m, k => if a = k then some v else dlookup m k

/-- Membership test of a key, as in Python `k in d`. -/
def dmem {α : Type} (m : List (String × α)) (k : String) : Bool :=
  (dlookup m k).isSome

/-- Python `d[k] = v`: overwrite in place when the key exists, else append. -/
def dinsert {α : Type} (m : List (String × α)) (k : String) (v : α) :
    List (String × α) :=
  if dmem m k then m.map (fun p => if p.1 = k then (k, v) else p) else m ++ [(k, v)]

/-- Python `d.pop(k, None)` / `del d[k]`: remove the binding of `k`. -/
def ddel {α : Type} : List (String × α) → String → List (String × α)
  | [], _ => []
  | (a, v) :: m, k => if a = k then ddel m k else (a, v) :: ddel m k

/-- Lookup of a cell in a two-level dict `stage -> factor -> value`. -/
def dlookup2 {α : Type} (g : List (String × List (String × α))) (s f : String) :
    Option α :=
  (dlookup g s).bind (fun row => dlookup row f)

/-- Python `str.strip()`: drop leading and trailing whitespace. -/
def pyStrip (s : String) : String :=
  ⟨((s.data.dropWhile Char.isWhitespace).reverse.dropWhile Char.isWhitespace).reverse⟩

/-- Dataclass `FactorScore`: one judgment for one (stage, factor) pair.
`score = none` encodes the Python `None`, meaning unknown / not assessed. -/
structure FactorScore where
  score : Option ℚ := none
  note : String := ""
deriving DecidableEq

/-- The cell `FactorScore()` created by a zero-argument constructor call. -/
def FactorScore.default : FactorScore := {}

/-- Dataclass `Project`: the aggregate root, with the field defaults of the
source. The grid is `stage -> factor -> FactorScore`. -/
structure Project where
  name : String
  description : String := ""
  trl : Int := 4
  scoping_notes : String := ""
  lifecycle_stages : List String := []
  lifecycle_changed : List (String × Bool) := []
  selected_factors : List (String × List String) := []
  grid : List (String × List (String × FactorScore)) := []
  core_function : String := ""
  functional_unit : String := ""
deriving DecidableEq

/-- First loop of `Project.ensure_grid` over the row of one stage: for each
selected factor missing from the row, add a fresh default cell. -/
def addMissing (row : List (String × FactorScore)) (all_factors : List String) :
    List (String × FactorScore) :=
  all_factors.foldl (fun r f => if dmem r f then r else r ++ [(f, FactorScore.default)]) row

/-- Both loops of `Project.ensure_grid` over the row of one stage: add missing
selected factors, then delete factors no longer selected. -/
def ensure_row (row : List (String × FactorScore)) (all_factors : List String) :
    List (String × FactorScore) :=
  (addMissing row all_factors).filter (fun p => all_factors.contains p.1)

/-- `Project.ensure_grid`: for every stage of `lifecycle_stages`, make sure
every (stage, factor) pair exists in the grid (via `setdefault`), and drop
factors of that row that are no longer selected. -/
def Project.ensure_grid (p : Project) (all_factors : List String) : Project :=
  { p with
    grid := p.lifecycle_stages.foldl
      (fun g stage => dinsert g stage (ensure_row ((dlookup g stage).getD []) all_factors))
      p.grid }

/-- The list of known (non-`None`) scores of one stage row, in order. -/
def knownScores (row : List (String × FactorScore)) : List ℚ :=
  row.filterMap (fun fc => fc.2.score)

/-- Per-row body of `Project.average_by_stage`: `statistics.mean` of the
known scores, or the NaN sentinel (`none`) when there are none. -/
def stage_avg (row : List (String × FactorScore)) : Option ℚ :=
  if knownScores row = [] then none
  else some ((knownScores row).sum / (knownScores row).length)

/-- `Project.average_by_stage`: one entry per grid row, keyed by stage. -/
def Project.average_by_stage (p : Project) : List (String × Option ℚ) :=
  p.grid.map (fun sr => (sr.1, stage_avg sr.2))

/-- Python `round(q)` (round half to even), via the floor of `q`. -/
def roundHalfEven (q : ℚ) : ℤ :=
  if q - ⌊q⌋ < 1/2 then ⌊q⌋
  else if (1:ℚ)/2 < q - ⌊q⌋ then ⌊q⌋ + 1
  else if ⌊q⌋ % 2 = 0 then ⌊q⌋ else ⌊q⌋ + 1

/-- Python `round(q, 2)`: round to two decimal places, half to even. -/
def round2 (q : ℚ) : ℚ := (roundHalfEven (q * 100) : ℚ) / 100

/-- `Project.overall_score`: `round(mean, 2)` of the non-NaN stage averages,
or `None` when every stage average is the NaN sentinel. -/
def Project.overall_score (p : Project) : Option ℚ :=
  let vals := p.average_by_stage.filterMap Prod.snd
  if vals = [] then none else some (round2 (vals.sum / vals.length))

/-- The `valid_stage_avgs` of Step 5: the stage averages with NaN entries
dropped, in stage order. -/
def Project.valid_stage_avgs (p : Project) : List (String × ℚ) :=
  p.average_by_stage.filterMap (fun sv => sv.2.map (fun v => (sv.1, v)))

/-- Python `min(items, key=snd)`: first pair attaining the minimal value. -/
def minBySnd : List (String × ℚ) → Option (String × ℚ)
  | [] => none
  | x :: xs => some (xs.foldl (fun b y => if y.2 < b.2 then y else b) x)

/-- Python `max(items, key=snd)`: first pair attaining the maximal value. -/
def maxBySnd : List (String × ℚ) → Option (String × ℚ)
  | [] => none
  | x :: xs => some (xs.foldl (fun b y => if b.2 < y.2 then y else b) x)

/-- The worst performing stage of Step 5: argmin over the valid stage averages,
no result when none are valid. -/
def Project.worst_stage (p : Project) : Option (String × ℚ) :=
  minBySnd p.valid_stage_avgs

/-- The best performing stage of Step 5: argmax over the valid stage averages,
no result when none are valid. -/
def Project.best_stage (p : Project) : Option (String × ℚ) :=
  maxBySnd p.valid_stage_avgs

/-- One row of the `INTERPRETATION` table. -/
structure Band where
  label : String
  upper : ℚ
  explanation : String
deriving DecidableEq

/-- The fixed `INTERPRETATION` band table of the source. -/
def INTERPRETATION : List Band :=
  [⟨"Measurably Worse", 1, "Leads to a measurable worsening"⟩,
   ⟨"Possibly Worse", 2, "Might lead to a measurable worsening"⟩,
   ⟨"Equal", 3, "No measurable change"⟩,
   ⟨"Possibly Better", 4, "Might lead to a measurable improvement"⟩,
   ⟨"Measurably Better", 5, "Leads to a measurable improvement"⟩]

/-- The loop of `interp_label`: return the first band whose upper bound,
plus the `1e-9` tolerance, is at least the value. -/
def interpGo (value : ℚ) : List Band → String
  | [] => "n/a"
  | b :: rest => if value ≤ b.upper + 1/1000000000 then b.label else interpGo value rest

/-- `interp_label` of the source. -/
def interp_label (value : ℚ) : String := interpGo value INTERPRETATION

/-- The selection rule as the spec words it, for the refinement proof of the
banding claim: the label of the first band of the ordered table whose upper
bound (inclusive, with the small tolerance) is at least the value. -/
def specInterpLabel (value : ℚ) : String :=
  match INTERPRETATION.find? (fun b => decide (value ≤ b.upper + 1/1000000000)) with
  | some b => b.label
  | none => "n/a"

/-- A grid cell as it appears in an exported JSON document: a plain record
whose fields may be absent in older documents (`none` = field absent). -/
structure DocCell where
  score : Option (Option ℚ) := none
  note : Option String := none
deriving DecidableEq

/-- An exported project document; every field may be absent (`none`) in a
document written by an earlier schema version. -/
structure Document where
  name : Option String := none
  description : Option String := none
  trl : Option Int := none
  scoping_notes : Option String := none
  lifecycle_stages : Option (List String) := none
  lifecycle_changed : Option (List (String × Bool)) := none
  selected_factors : Option (List (String × List String)) := none
  grid : Option (List (String × List (String × DocCell))) := none
  core_function : Option String := none
  functional_unit : Option String := none
deriving DecidableEq

/-- `dataclasses.asdict` on a `FactorScore`: both fields present. -/
def FactorScore.asdict (fs : FactorScore) : DocCell := ⟨some fs.score, some fs.note⟩

/-- The sidebar export `asdict(ap)`: a document with every field present. -/
def Project.toDocument (p : Project) : Document :=
  { name := some p.name,
    description := some p.description,
    trl := some p.trl,
    scoping_notes := some p.scoping_notes,
    lifecycle_stages := some p.lifecycle_stages,
    lifecycle_changed := some p.lifecycle_changed,
    selected_factors := some p.selected_factors,
    grid := some (p.grid.map (fun sr => (sr.1, sr.2.map (fun fc => (fc.1, fc.2.asdict))))),
    core_function := some p.core_function,
    functional_unit := some p.functional_unit }

/-- `Project.coerce_grid` on one imported cell: `FactorScore(**fs)`, with
the dataclass defaults filling any absent field. -/
def coerce_cell (c : DocCell) : FactorScore := ⟨c.score.getD none, c.note.getD ""⟩

/-- The landing-page project loading, `Project(**data)` followed by
`coerce_grid()`: fails (`none`) when the mandatory `name` is missing, and
fills every other absent field with its dataclass default. -/
def Project.ofDocument (d : Document) : Option Project :=
  match d.name with
  | none => none
  | some nm =>
    some { name := nm,
           description := d.description.getD "",
           trl := d.trl.getD 4,
           scoping_notes := d.scoping_notes.getD "",
           lifecycle_stages := d.lifecycle_stages.getD [],
           lifecycle_changed := d.lifecycle_changed.getD [],
           selected_factors := d.selected_factors.getD [],
           grid := (d.grid.getD []).map
             (fun sr => (sr.1, sr.2.map (fun fc => (fc.1, coerce_cell fc.2)))),
           core_function := d.core_function.getD "",
           functional_unit := d.functional_unit.getD "" }

/-- The Step 2 editor state the stage mutations act on: the per-subtitle
stage lists (`st.session_state.sections`) plus the flags and grid of the
active project. -/
structure Step2State where
  sections : List (String × List String)
  lifecycle_changed : List (String × Bool)
  grid : List (String × List (String × FactorScore))
deriving DecidableEq

/-- `MAX_TOTAL` as in force at the add-stage check of the Step 2 editor. -/
def MAX_TOTAL : Nat := 7

/-- `total_count()`: the total number of stages across all subtitles. -/
def total_count (st : Step2State) : Nat :=
  (st.sections.map (fun t => t.2.length)).sum

/-- Failure conditions of the add-stage handler, as reported by its
`st.warning` calls. -/
inductive AddStageError where
  | emptyName
  | capacityExceeded
deriving DecidableEq

/-- The Step 2 add-stage handler: reject a blank name, reject when the
total stage count has reached `MAX_TOTAL`, otherwise append the stripped
name to the chosen subtitle and record its flag. Returns the resulting
state together with the reported failure, if any. -/
def add_stage (st : Step2State) (title add_name : String) (add_change : Bool) :
    Step2State × Option AddStageError :=
  if pyStrip add_name = "" then (st, some AddStageError.emptyName)
  else if MAX_TOTAL ≤ total_count st then (st, some AddStageError.capacityExceeded)
  else
    ({ st with
       sections := st.sections.map
         (fun t => if t.1 = title then (t.1, t.2 ++ [pyStrip add_name]) else t),
       lifecycle_changed := dinsert st.lifecycle_changed (pyStrip add_name) add_change },
     none)

/-- The state the Step 2 rename write-back acts on: the stage list of one
subtitle together with the flags and the grid of the active project. -/
structure StageState where
  stages : List String
  lifecycle_changed : List (String × Bool)
  grid : List (String × List (String × FactorScore))
deriving DecidableEq

/-- The Step 2 rename write-back for row `i`: when the edited name differs,
carry the change flag to the new name, drop the old flag, and replace the
list entry; otherwise just record the flag. The grid is not touched. -/
def rename_stage (st : StageState) (i : Nat) (new_name : String) (new_change : Bool) :
    StageState :=
  match st.stages.get? i with
  | none => st
  | some name =>
    if new_name ≠ name then
      { st with
        stages := st.stages.set i new_name,
        lifecycle_changed := ddel (dinsert st.lifecycle_changed new_name new_change) name }
    else
      { st with lifecycle_changed := dinsert st.lifecycle_changed name new_change }


/-! ### Concrete instances used by the claim theorems -/

/-- A stage row with scores [unknown, 4, 2]. -/
def exampleRow : List (String × FactorScore) :=
  [("f1", ⟨none, ""⟩), ("f2", ⟨some 4, ""⟩), ("f3", ⟨some 2, ""⟩)]

/-- A one-stage project whose only row is `exampleRow`. -/
def exC1P : Project :=
  { name := "P", lifecycle_stages := ["S"], grid := [("S", exampleRow)] }

/-- A stage row whose only cell is unknown. -/
def exRowB : List (String × FactorScore) := [("y", ⟨none, ""⟩)]

/-- A project with one scored stage "A" and one all-unknown stage "B". -/
def exC2P : Project :=
  { name := "P", lifecycle_stages := ["A", "B"],
    grid := [("A", [("x", ⟨some 4, ""⟩)]), ("B", exRowB)] }

/-- A project whose grid still has a row for stage "B" although only "A"
is in the stage list. -/
def cexEnsureP : Project :=
  { name := "P", lifecycle_stages := ["A"], grid := [("B", [("g", ⟨some 5, ""⟩)])] }

/-- A project with one current stage owning one kept and one dropped
factor cell. -/
def wEnsureP : Project :=
  { name := "P", lifecycle_stages := ["A"],
    grid := [("A", [("f", ⟨some 2, "n"⟩), ("g", ⟨some 5, ""⟩)])] }

/-- A Step 2 editor state already holding seven stages in total. -/
def wSt : Step2State :=
  { sections := [("Product", ["a", "b", "c"]), ("Construction", ["d", "e"]),
                 ("Use", ["u"]), ("EoL", ["w"])],
    lifecycle_changed := [], grid := [] }

/-- A one-stage state with a flag and a scored grid row under "Use". -/
def cexRenameSt : StageState :=
  { stages := ["Use"], lifecycle_changed := [("Use", true)],
    grid := [("Use", [("f1", ⟨some 5, "w"⟩)])] }

/-- A project whose three stage averages are 1, 1 and 2. -/
def cexOverallP : Project :=
  { name := "P", lifecycle_stages := ["A", "B", "C"],
    grid := [("A", [("x", ⟨some 1, ""⟩)]), ("B", [("y", ⟨some 1, ""⟩)]),
             ("C", [("z", ⟨some 2, ""⟩)])] }

/-- A project with a single known score of 1. -/
def wOverallP : Project :=
  { name := "P", lifecycle_stages := ["A"], grid := [("A", [("x", ⟨some 1, ""⟩)])] }

/-- A document whose only present fields are the name and a grid with one
cell record that has neither a score nor a note field. -/
def wDoc : Document :=
  { name := some "P", grid := some [("A", [("f", ⟨none, none⟩)])] }

/-- A project with one cell to be preserved by reconciliation. -/
def wC10P : Project :=
  { name := "P", lifecycle_stages := ["A"], grid := [("A", [("f", ⟨some 4, "ok"⟩)])] }

/-! ### Association-list (dict) lemmas -/

theorem dlookup_cons {α : Type} (a : String) (v : α) (m : List (String × α)) (k : String) :
    dlookup ((a, v) :: m) k = if a = k then some v else dlookup m k := rfl

theorem dlookup_append {α : Type} (m₁ m₂ : List (String × α)) (k : String) :
    dlookup (m₁ ++ m₂) k =
      match dlookup m₁ k with
      | some v => some v
      | none => dlookup m₂ k := by
  induction m₁ with
  | nil => simp [dlookup]
  | cons a m ih =>
    obtain ⟨ak, av⟩ := a
    by_cases h : ak = k <;> simp [dlookup_cons, h, ih]

theorem dlookup_map_value {α β : Type} (m : List (String × α)) (g : α → β) (k : String) :
    dlookup (m.map (fun p => (p.1, g p.2))) k = (dlookup m k).map g := by
  induction m with
  | nil => simp [dlookup]
  | cons a m ih =>
    obtain ⟨ak, av⟩ := a
    by_cases h : ak = k <;> simp [dlookup_cons, h, ih]

theorem dmem_cons {α : Type} (a : String) (v : α) (m : List (String × α)) (k : String) :
    dmem ((a, v) :: m) k = if a = k then true else dmem m k := by
  by_cases h : a = k <;> simp [dmem, dlookup_cons, h]

theorem dmem_eq_true_iff {α : Type} (m : List (String × α)) (k : String) :
    dmem m k = true ↔ k ∈ m.map Prod.fst := by
  induction m with
  | nil => simp [dmem, dlookup]
  | cons a m ih =>
    obtain ⟨ak, av⟩ := a
    by_cases h : ak = k <;> simp [dmem_cons, h, ih]
    exact fun he => absurd he.symm h

theorem dlookup_eq_none_of_not_dmem {α : Type} (m : List (String × α)) (k : String)
    (h : dmem m k = false) : dlookup m k = none := by
  cases hl : dlookup m k with
  | none => rfl
  | some w => rw [dmem, hl] at h; simp at h

theorem dlookup_overwrite_self {α : Type} (m : List (String × α)) (k : String) (v : α) :
    dlookup (m.map (fun p => if p.1 = k then (k, v) else p)) k =
      if dmem m k then some v else none := by
  induction m with
  | nil => simp [dlookup, dmem]
  | cons a m ih =>
    obtain ⟨ak, av⟩ := a
    by_cases h : ak = k
    · subst h
      simp [dlookup_cons, dmem_cons]
    · simp [h, dlookup_cons, dmem_cons, ih]

theorem dlookup_overwrite_ne {α : Type} (m : List (String × α)) (k k' : String) (v : α)
    (h : k' ≠ k) :
    dlookup (m.map (fun p => if p.1 = k then (k, v) else p)) k' = dlookup m k' := by
  induction m with
  | nil => simp [dlookup]
  | cons a m ih =>
    obtain ⟨ak, av⟩ := a
    by_cases hk : ak = k
    · subst hk
      have h2 : ¬ ak = k' := fun he => h (he.symm)
      simp [dlookup_cons, h2, ih]
    · simp [hk, dlookup_cons, ih]

theorem dlookup_dinsert_self {α : Type} (m : List (String × α)) (k : String) (v : α) :
    dlookup (dinsert m k v) k = some v := by
  unfold dinsert
  by_cases h : dmem m k
  · simp [h, dlookup_overwrite_self]
  · rw [if_neg (by simp [h])]
    rw [dlookup_append, dlookup_eq_none_of_not_dmem m k (by simpa using h)]
    simp [dlookup_cons]

theorem dlookup_dinsert_ne {α : Type} (m : List (String × α)) (k k' : String) (v : α)
    (h : k' ≠ k) :
    dlookup (dinsert m k v) k' = dlookup m k' := by
  unfold dinsert
  by_cases hm : dmem m k
  · simp [hm, dlookup_overwrite_ne m k k' v h]
  · rw [if_neg (by simp [hm])]
    rw [dlookup_append]
    have h2 : ¬ k = k' := fun he => h he.symm
    simp [dlookup_cons, h2, dlookup]
    cases dlookup m k' <;> simp

theorem dlookup_filter_key {α : Type} (m : List (String × α)) (pred : String → Bool)
    (k : String) :
    dlookup (m.filter (fun p => pred p.1)) k = if pred k then dlookup m k else none := by
  induction m with
  | nil => simp [dlookup]
  | cons a m ih =>
    obtain ⟨ak, av⟩ := a
    by_cases hk : ak = k
    · subst hk
      by_cases hp : pred ak <;> simp [List.filter_cons, hp, dlookup_cons, ih]
    · by_cases hp : pred ak <;> simp [List.filter_cons, hp, dlookup_cons, hk, ih]

/-! ### Grid reconciliation lemmas -/

theorem addMissing_cons (row : List (String × FactorScore)) (f : String) (fs : List String) :
    addMissing row (f :: fs) =
      addMissing (if dmem row f then row else row ++ [(f, FactorScore.default)]) fs := rfl

theorem dlookup_addMissing (row : List (String × FactorScore)) (fs : List String)
    (k : String) :
    dlookup (addMissing row fs) k =
      match dlookup row k with
      | some c => some c
      | none => if k ∈ fs then some FactorScore.default else none := by
  induction fs generalizing row with
  | nil => cases hl : dlookup row k <;> simp [addMissing, hl]
  | cons f fs ih =>
    rw [addMissing_cons]
    by_cases hf : dmem row f
    · rw [if_pos hf, ih row]
      cases hl : dlookup row k with
      | some c => rfl
      | none =>
        by_cases hk : k = f
        · subst hk; rw [dmem, hl] at hf; simp at hf
        · simp [List.mem_cons, hk]
    · rw [if_neg hf, ih _, dlookup_append]
      cases hl : dlookup row k with
      | some c => rfl
      | none =>
        by_cases hk : k = f
        · subst hk; simp [dlookup_cons, List.mem_cons]
        · have hfk : ¬ f = k := fun he => hk he.symm
          simp [dlookup_cons, hfk, dlookup, hk]

theorem dlookup_ensure_row (row : List (String × FactorScore)) (fs : List String)
    (k : String) :
    dlookup (ensure_row row fs) k =
      if k ∈ fs then
        match dlookup row k with
        | some c => some c
        | none => some FactorScore.default
      else none := by
  unfold ensure_row
  rw [dlookup_filter_key]
  by_cases hk : k ∈ fs
  · rw [if_pos (by simpa using hk), if_pos hk, dlookup_addMissing]
    cases dlookup row k <;> simp [hk]
  · rw [if_neg (by simpa using hk), if_neg hk]

theorem keys_addMissing_nodup (row : List (String × FactorScore)) (fs : List String)
    (h : (row.map Prod.fst).Nodup) : ((addMissing row fs).map Prod.fst).Nodup := by
  induction fs generalizing row with
  | nil => exact h
  | cons f fs ih =>
    rw [addMissing_cons]
    by_cases hf : dmem row f
    · rw [if_pos hf]; exact ih row h
    · rw [if_neg hf]
      apply ih
      have hnf : f ∉ row.map Prod.fst := by
        intro hm
        rw [← dmem_eq_true_iff] at hm
        simp [hm] at hf
      simp [List.nodup_append, h, hnf]

theorem keys_ensure_row_nodup (row : List (String × FactorScore)) (fs : List String)
    (h : (row.map Prod.fst).Nodup) : ((ensure_row row fs).map Prod.fst).Nodup :=
  (keys_addMissing_nodup row fs h).sublist
    (List.Sublist.map Prod.fst (List.filter_sublist _))

theorem dlookup_ensure_fold_not_mem (fs stages : List String)
    (g : List (String × List (String × FactorScore))) (s : String) (hs : s ∉ stages) :
    dlookup (stages.foldl
        (fun g stage => dinsert g stage (ensure_row ((dlookup g stage).getD []) fs)) g) s =
      dlookup g s := by
  induction stages generalizing g with
  | nil => rfl
  | cons a rest ih =>
    simp only [List.foldl_cons]
    have ha : s ≠ a := fun he => hs (by simp [he])
    rw [ih _ (fun hm => hs (by simp [hm]))]
    exact dlookup_dinsert_ne _ a s _ ha

theorem dlookup_ensure_fold_mem (fs stages : List String)
    (g : List (String × List (String × FactorScore))) (s : String)
    (hnd : stages.Nodup) (hs : s ∈ stages) :
    dlookup (stages.foldl
        (fun g stage => dinsert g stage (ensure_row ((dlookup g stage).getD []) fs)) g) s =
      some (ensure_row ((dlookup g s).getD []) fs) := by
  induction stages generalizing g with
  | nil => cases hs
  | cons a rest ih =>
    simp only [List.foldl_cons]
    rcases List.mem_cons.mp hs with he | hm
    · subst he
      have hrest : s ∉ rest := (List.nodup_cons.mp hnd).1
      rw [dlookup_ensure_fold_not_mem fs rest _ s hrest]
      exact dlookup_dinsert_self _ s _
    · have ha : s ≠ a := fun he => ((List.nodup_cons.mp hnd).1) (he ▸ hm)
      rw [ih _ ((List.nodup_cons.mp hnd).2) hm, dlookup_dinsert_ne _ a s _ ha]

theorem ensure_fold_preserves (fs stages : List String)
    (g : List (String × List (String × FactorScore))) (s f : String) (c : FactorScore)
    (hf : f ∈ fs) (hc : dlookup2 g s f = some c) :
    dlookup2 (stages.foldl
        (fun g stage => dinsert g stage (ensure_row ((dlookup g stage).getD []) fs)) g) s f =
      some c := by
  induction stages generalizing g with
  | nil => exact hc
  | cons a rest ih =>
    simp only [List.foldl_cons]
    apply ih
    by_cases ha : s = a
    · subst ha
      obtain ⟨row, hrow, hcell⟩ : ∃ row, dlookup g s = some row ∧ dlookup row f = some c := by
        unfold dlookup2 at hc
        cases hl : dlookup g s with
        | none => rw [hl] at hc; simp at hc
        | some row => rw [hl] at hc; exact ⟨row, rfl, hc⟩
      unfold dlookup2
      rw [dlookup_dinsert_self, hrow]
      simp only [Option.getD_some, Option.some_bind]
      rw [dlookup_ensure_row, if_pos hf, hcell]
    · unfold dlookup2 at hc ⊢
      rw [dlookup_dinsert_ne _ a s _ (by exact ha)]
      exact hc

/-! ### Aggregation lemmas -/

theorem stage_avg_eq_none_iff (row : List (String × FactorScore)) :
    stage_avg row = none ↔ ∀ fc ∈ row, fc.2.score = none := by
  constructor
  · intro hnone
    by_cases h : knownScores row = []
    · rw [knownScores, List.filterMap_eq_nil_iff] at h
      exact h
    · rw [stage_avg, if_neg h] at hnone
      cases hnone
  · intro hall
    have h : knownScores row = [] := by
      rw [knownScores, List.filterMap_eq_nil_iff]
      exact hall
    rw [stage_avg, if_pos h]

theorem valid_stage_avgs_eq (p : Project) :
    p.valid_stage_avgs =
      p.grid.filterMap (fun sr => (stage_avg sr.2).map (fun v => (sr.1, v))) := by
  unfold Project.valid_stage_avgs Project.average_by_stage
  rw [List.filterMap_map]
  rfl

theorem filterMap_snd_eq (l : List (String × Option ℚ)) :
    l.filterMap Prod.snd =
      (l.filterMap (fun sv => sv.2.map (fun v => (sv.1, v)))).map Prod.snd := by
  induction l with
  | nil => rfl
  | cons a t ih =>
    obtain ⟨s, o⟩ := a
    cases o <;> simp [List.filterMap_cons, ih]

theorem overall_score_eq_of_valid (p : Project) :
    p.overall_score =
      if p.valid_stage_avgs = [] then none
      else some (round2 ((p.valid_stage_avgs.map Prod.snd).sum /
        (p.valid_stage_avgs.map Prod.snd).length)) := by
  unfold Project.overall_score Project.valid_stage_avgs
  rw [filterMap_snd_eq p.average_by_stage]
  by_cases h : p.average_by_stage.filterMap (fun sv => sv.2.map (fun v => (sv.1, v))) = []
  · simp [h]
  · rw [if_neg (by simp [h]), if_neg h]

theorem ddel_eq_self_of_not_mem {α : Type} (m : List (String × α)) (k : String)
    (h : k ∉ m.map Prod.fst) : ddel m k = m := by
  induction m with
  | nil => rfl
  | cons a t ih =>
    obtain ⟨ak, av⟩ := a
    have hak : ¬ ak = k := fun he => h (by simp [he])
    rw [ddel, if_neg hak, ih (fun hm => h (by simp [hm]))]

theorem validOf_ddel_all_unknown (g : List (String × List (String × FactorScore)))
    (s : String) (hnd : (g.map Prod.fst).Nodup)
    (row : List (String × FactorScore)) (hrow : dlookup g s = some row)
    (hall : ∀ fc ∈ row, fc.2.score = none) :
    (ddel g s).filterMap (fun sr => (stage_avg sr.2).map (fun v => (sr.1, v))) =
      g.filterMap (fun sr => (stage_avg sr.2).map (fun v => (sr.1, v))) := by
  induction g with
  | nil => rfl
  | cons a t ih =>
    obtain ⟨ak, ar⟩ := a
    by_cases ha : ak = s
    · subst ha
      rw [dlookup_cons, if_pos rfl] at hrow
      have hr : ar = row := by injection hrow
      subst hr
      have havg : stage_avg ar = none := (stage_avg_eq_none_iff ar).mpr hall
      have hnot : ak ∉ t.map Prod.fst := (List.nodup_cons.mp (by simpa using hnd)).1
      rw [ddel, if_pos rfl, ddel_eq_self_of_not_mem t ak hnot]
      simp [List.filterMap_cons, havg]
    · rw [dlookup_cons, if_neg ha] at hrow
      rw [ddel, if_neg ha]
      have htnd : (t.map Prod.fst).Nodup := (List.nodup_cons.mp (by simpa using hnd)).2
      simp [List.filterMap_cons, ih htnd hrow]

theorem mem_keys_of_mem_validOf (g : List (String × List (String × FactorScore)))
    (s : String) (v : ℚ)
    (h : (s, v) ∈ g.filterMap (fun sr => (stage_avg sr.2).map (fun w => (sr.1, w)))) :
    s ∈ g.map Prod.fst := by
  rw [List.mem_filterMap] at h
  obtain ⟨sr, hsr, hF⟩ := h
  cases hsa : stage_avg sr.2 with
  | none => rw [hsa] at hF; cases hF
  | some w =>
    rw [hsa] at hF
    have h2 : (sr.1, w) = (s, v) := by simpa using hF
    exact List.mem_map.mpr ⟨sr, hsr, congrArg Prod.fst h2⟩

/-! ### Remaining helper lemmas -/

theorem not_mem_keys_ddel {α : Type} (m : List (String × α)) (k : String) :
    k ∉ (ddel m k).map Prod.fst := by
  induction m with
  | nil => simp [ddel]
  | cons a t ih =>
    obtain ⟨ak, av⟩ := a
    by_cases ha : ak = k
    · rw [ddel, if_pos ha]; exact ih
    · rw [ddel, if_neg ha]
      simp only [List.map_cons, List.mem_cons]
      rintro (he | hm)
      · exact ha he.symm
      · exact ih hm

theorem dlookup_some_mem {α : Type} (m : List (String × α)) (k : String) (v : α)
    (h : dlookup m k = some v) : (k, v) ∈ m := by
  induction m with
  | nil => cases h
  | cons a t ih =>
    obtain ⟨ak, av⟩ := a
    by_cases ha : ak = k
    · subst ha
      rw [dlookup_cons, if_pos rfl] at h
      have : av = v := by injection h
      subst this
      exact List.mem_cons_self _ _
    · rw [dlookup_cons, if_neg ha] at h
      exact List.mem_cons_of_mem _ (ih h)

theorem overall_score_eq_none_iff (p : Project) :
    p.overall_score = none ↔ ∀ sr ∈ p.grid, ∀ fc ∈ sr.2, fc.2.score = none := by
  have key : (p.average_by_stage.filterMap Prod.snd = []) ↔
      (∀ sr ∈ p.grid, ∀ fc ∈ sr.2, fc.2.score = none) := by
    rw [List.filterMap_eq_nil_iff]
    unfold Project.average_by_stage
    constructor
    · intro h sr hsr
      have h2 := h (sr.1, stage_avg sr.2) (List.mem_map.mpr ⟨sr, hsr, rfl⟩)
      exact (stage_avg_eq_none_iff sr.2).mp h2
    · intro h a ha
      obtain ⟨sr, hsr, he⟩ := List.mem_map.mp ha
      subst he
      exact (stage_avg_eq_none_iff sr.2).mpr (h sr hsr)
  have hov : p.overall_score =
      if p.average_by_stage.filterMap Prod.snd = [] then none
      else some (round2 ((p.average_by_stage.filterMap Prod.snd).sum /
        (p.average_by_stage.filterMap Prod.snd).length)) := rfl
  rw [hov]
  constructor
  · intro hn
    by_cases h : p.average_by_stage.filterMap Prod.snd = []
    · exact key.mp h
    · rw [if_neg h] at hn
      cases hn
  · intro hall
    rw [if_pos (key.mpr hall)]

theorem interpGo_eq_find (v : ℚ) (l : List Band) :
    interpGo v l =
      match l.find? (fun b => decide (v ≤ b.upper + 1/1000000000)) with
      | some b => b.label
      | none => "n/a" := by
  induction l with
  | nil => rfl
  | cons b rest ih =>
    simp only [interpGo]
    by_cases h : v ≤ b.upper + 1/1000000000
    · rw [if_pos h, List.find?_cons_of_pos _ (by simpa using h)]
    · rw [if_neg h, List.find?_cons_of_neg _ (by simpa using h)]
      exact ih

theorem row_asdict_coerce (row : List (String × FactorScore)) :
    (row.map (fun fc => (fc.1, fc.2.asdict))).map (fun fc => (fc.1, coerce_cell fc.2)) =
      row := by
  induction row with
  | nil => rfl
  | cons a t ih =>
    obtain ⟨ak, sc, nt⟩ := a
    simp only [List.map_cons, List.cons.injEq, Prod.mk.injEq]
    exact ⟨⟨trivial, by simp [FactorScore.asdict, coerce_cell]⟩, ih⟩

theorem grid_asdict_coerce (g : List (String × List (String × FactorScore))) :
    (g.map (fun sr => (sr.1, sr.2.map (fun fc => (fc.1, fc.2.asdict))))).map
      (fun sr => (sr.1, sr.2.map (fun fc => (fc.1, coerce_cell fc.2)))) = g := by
  induction g with
  | nil => rfl
  | cons a t ih =>
    obtain ⟨ak, row⟩ := a
    simp only [List.map_cons, List.cons.injEq, Prod.mk.injEq]
    exact ⟨⟨trivial, row_asdict_coerce row⟩, ih⟩

/-! ### Claim theorems -/

/-- Claim C1: for every project grid and every stage present in it,
`average_by_stage` maps that stage to the arithmetic mean of only the
known (non-unknown) scores among its factor cells (the NaN sentinel when
none are known); in particular a stage with scores [unknown, 4, 2] yields
3, not 2. -/
theorem average_by_stage_excludes_unknown :
    (∀ (p : Project) (s : String) (row : List (String × FactorScore)),
        dlookup p.grid s = some row →
        dlookup p.average_by_stage s =
          some (if knownScores row = [] then none
                else some ((knownScores row).sum / (knownScores row).length))) ∧
    stage_avg exampleRow = some 3 ∧ stage_avg exampleRow ≠ some 2 := by
  refine ⟨?_, ?_, ?_⟩
  · intro p s row h
    unfold Project.average_by_stage
    rw [dlookup_map_value p.grid stage_avg s, h]
    rfl
  · simp [stage_avg, exampleRow, knownScores, List.filterMap_cons]
    norm_num
  · simp [stage_avg, exampleRow, knownScores, List.filterMap_cons]
    norm_num

/-- Witness for C1 at the concrete one-stage project `exC1P`. -/
theorem average_by_stage_excludes_unknown_witness :
    dlookup exC1P.grid "S" = some exampleRow ∧
    dlookup exC1P.average_by_stage "S" =
      some (if knownScores exampleRow = [] then none
            else some ((knownScores exampleRow).sum / (knownScores exampleRow).length)) :=
  ⟨rfl, average_by_stage_excludes_unknown.1 exC1P "S" exampleRow rfl⟩

/-- Claim C3: importing the document produced by exporting a project
reproduces the project exactly: stages with their order, the change flags,
the factor selections and every grid cell score and note. -/
theorem export_import_round_trip (p : Project) :
    Project.ofDocument (Project.toDocument p) = some p := by
  obtain ⟨nm, ds, tr, sn, ls, lc, sf, g, cf, fu⟩ := p
  simp only [Project.toDocument, Project.ofDocument, Option.getD_some]
  rw [grid_asdict_coerce]

/-- Claim C4, evaluated at a concrete state: the Step 2 rename write-back
moves the `expected_to_change` flag and the stage-list entry to the new
name, but the grid row keeps its old key — the former ("Use", factor)
cells are not re-keyed under "Use Phase", so the flag and the grid row do
not move together as the claim requires. -/
theorem rename_stage_leaves_grid_row :
    (rename_stage cexRenameSt 0 "Use Phase" true).lifecycle_changed =
      [("Use Phase", true)] ∧
    dlookup (rename_stage cexRenameSt 0 "Use Phase" true).lifecycle_changed "Use" =
      none ∧
    (rename_stage cexRenameSt 0 "Use Phase" true).stages = ["Use Phase"] ∧
    dlookup (rename_stage cexRenameSt 0 "Use Phase" true).grid "Use Phase" = none ∧
    dlookup (rename_stage cexRenameSt 0 "Use Phase" true).grid "Use" =
      some [("f1", ⟨some 5, "w"⟩)] := by
  decide

/-- Claim C9: `interp_label` returns the label of the first band of the
ordered table whose upper bound (inclusive, with the small floating-point
tolerance) is at least the value; a value exactly on a band boundary
receives the label of that band, not of the next band. -/
theorem interp_label_first_band :
    (∀ v : ℚ, interp_label v = specInterpLabel v) ∧
    interp_label 1 = "Measurably Worse" ∧
    interp_label 2 = "Possibly Worse" ∧
    interp_label 3 = "Equal" ∧
    interp_label 4 = "Possibly Better" ∧
    interp_label 5 = "Measurably Better" := by
  refine ⟨fun v => interpGo_eq_find v INTERPRETATION, ?_, ?_, ?_, ?_, ?_⟩ <;>
    norm_num [interp_label, interpGo, INTERPRETATION]

/-- Claim C10: grid reconciliation never modifies an existing cell whose
factor is still selected — after `ensure_grid` the cell is found unchanged,
score and note included. -/
theorem ensure_grid_preserves_cells (p : Project) (fs : List String) (s f : String)
    (c : FactorScore) (hf : f ∈ fs) (hc : dlookup2 p.grid s f = some c) :
    dlookup2 (p.ensure_grid fs).grid s f = some c :=
  ensure_fold_preserves fs p.lifecycle_stages p.grid s f c hf hc

/-- Witness for C10 at the concrete project `wC10P`. -/
theorem ensure_grid_preserves_cells_witness :
    dlookup2 wC10P.grid "A" "f" = some ⟨some 4, "ok"⟩ ∧
    dlookup2 (wC10P.ensure_grid ["f", "h"]).grid "A" "f" = some ⟨some 4, "ok"⟩ :=
  ⟨by decide,
   ensure_grid_preserves_cells wC10P ["f", "h"] "A" "f" ⟨some 4, "ok"⟩ (by decide)
     (by decide)⟩

/-- Claim C2: a stage row all of whose cells are unknown gets the NaN
sentinel (`none`) from `average_by_stage`; it never appears among the valid
stage averages, deleting it changes neither `overall_score` nor
`best_stage` / `worst_stage`, and when no stage average is valid, best and
worst return no result. -/
theorem all_unknown_stage_excluded (p : Project) (s : String)
    (row : List (String × FactorScore))
    (hnd : (p.grid.map Prod.fst).Nodup)
    (hrow : dlookup p.grid s = some row)
    (hall : ∀ fc ∈ row, fc.2.score = none) :
    dlookup p.average_by_stage s = some none ∧
    (∀ v : ℚ, (s, v) ∉ p.valid_stage_avgs) ∧
    p.overall_score = Project.overall_score { p with grid := ddel p.grid s } ∧
    p.best_stage = Project.best_stage { p with grid := ddel p.grid s } ∧
    p.worst_stage = Project.worst_stage { p with grid := ddel p.grid s } ∧
    (p.valid_stage_avgs = [] → p.best_stage = none ∧ p.worst_stage = none) := by
  have havg : stage_avg row = none := (stage_avg_eq_none_iff row).mpr hall
  have hvalid : Project.valid_stage_avgs { p with grid := ddel p.grid s } =
      p.valid_stage_avgs := by
    rw [valid_stage_avgs_eq, valid_stage_avgs_eq]
    exact validOf_ddel_all_unknown p.grid s hnd row hrow hall
  refine ⟨?_, ?_, ?_, ?_, ?_, ?_⟩
  · unfold Project.average_by_stage
    rw [dlookup_map_value p.grid stage_avg s, hrow]
    simp [havg]
  · intro v hv
    rw [← hvalid, valid_stage_avgs_eq] at hv
    exact not_mem_keys_ddel p.grid s (mem_keys_of_mem_validOf _ s v hv)
  · rw [overall_score_eq_of_valid, overall_score_eq_of_valid, hvalid]
  · unfold Project.best_stage
    rw [hvalid]
  · unfold Project.worst_stage
    rw [hvalid]
  · intro hempty
    unfold Project.best_stage Project.worst_stage
    rw [hempty]
    exact ⟨rfl, rfl⟩

/-- Witness for C2 at the concrete project `exC2P`, whose stage "B" has
only unknown cells. -/
theorem all_unknown_stage_excluded_witness :
    dlookup exC2P.average_by_stage "B" = some none ∧
    (∀ v : ℚ, ("B", v) ∉ exC2P.valid_stage_avgs) ∧
    exC2P.overall_score = Project.overall_score { exC2P with grid := ddel exC2P.grid "B" } ∧
    exC2P.best_stage = Project.best_stage { exC2P with grid := ddel exC2P.grid "B" } ∧
    exC2P.worst_stage = Project.worst_stage { exC2P with grid := ddel exC2P.grid "B" } ∧
    (exC2P.valid_stage_avgs = [] → exC2P.best_stage = none ∧ exC2P.worst_stage = none) :=
  all_unknown_stage_excluded exC2P "B" exRowB (by decide) rfl (by decide)

/-- Claim C5 counterexample: in `cexEnsureP` the grid row of stage "B" is
not part of the project (its stage list is just ["A"]), yet `ensure_grid`
leaves that row in the grid untouched — entries referencing a stage no
longer part of the project are not pruned. -/
theorem ensure_grid_stale_stage_not_pruned :
    ("B" ∉ cexEnsureP.lifecycle_stages) ∧
    dlookup (cexEnsureP.ensure_grid ["f"]).grid "B" = some [("g", ⟨some 5, ""⟩)] := by
  decide

/-- Claim C5 (amended): after `ensure_grid` with the current stage list and
selected factors, every stage of the stage list has a grid row without
duplicate keys whose cells are exactly the selected factors — an existing
cell is kept, a missing one is created with the unknown default, and cells
of unselected factors are pruned from that row — while grid rows of stages
not in the stage list are left unchanged rather than pruned. -/
theorem ensure_grid_reconciles (p : Project) (fs : List String)
    (hnd : p.lifecycle_stages.Nodup)
    (hrows : ∀ sr ∈ p.grid, (sr.2.map Prod.fst).Nodup) :
    (∀ s ∈ p.lifecycle_stages,
      ∃ row, dlookup (p.ensure_grid fs).grid s = some row ∧
        (row.map Prod.fst).Nodup ∧
        ∀ f, dlookup row f =
          if f ∈ fs then
            match dlookup ((dlookup p.grid s).getD []) f with
            | some c => some c
            | none => some FactorScore.default
          else none) ∧
    (∀ s, s ∉ p.lifecycle_stages → dlookup (p.ensure_grid fs).grid s = dlookup p.grid s) := by
  constructor
  · intro s hs
    refine ⟨ensure_row ((dlookup p.grid s).getD []) fs, ?_, ?_, ?_⟩
    · exact dlookup_ensure_fold_mem fs p.lifecycle_stages p.grid s hnd hs
    · apply keys_ensure_row_nodup
      cases hl : dlookup p.grid s with
      | none => simp
      | some row0 =>
        simp only [Option.getD_some]
        exact hrows (s, row0) (dlookup_some_mem p.grid s row0 hl)
    · intro f
      exact dlookup_ensure_row _ fs f
  · intro s hs
    exact dlookup_ensure_fold_not_mem fs p.lifecycle_stages p.grid s hs

/-- Witness for C5 at the concrete project `wEnsureP`: factor "f" is kept
with its score and note, missing factor "h" is created unknown, unselected
factor "g" is pruned, and the absent stage "Z" stays absent. -/
theorem ensure_grid_reconciles_witness :
    dlookup2 (wEnsureP.ensure_grid ["f", "h"]).grid "A" "f" = some ⟨some 2, "n"⟩ ∧
    dlookup2 (wEnsureP.ensure_grid ["f", "h"]).grid "A" "h" = some FactorScore.default ∧
    dlookup2 (wEnsureP.ensure_grid ["f", "h"]).grid "A" "g" = none ∧
    dlookup (wEnsureP.ensure_grid ["f", "h"]).grid "Z" = dlookup wEnsureP.grid "Z" := by
  obtain ⟨hmem, hnot⟩ := ensure_grid_reconciles wEnsureP ["f", "h"] (by decide) (by decide)
  obtain ⟨row, hrow, hno, hf⟩ := hmem "A" (by decide)
  refine ⟨?_, ?_, ?_, hnot "Z" (by decide)⟩
  · unfold dlookup2
    rw [hrow]
    simp only [Option.some_bind]
    rw [hf "f"]
    decide
  · unfold dlookup2
    rw [hrow]
    simp only [Option.some_bind]
    rw [hf "h"]
    decide
  · unfold dlookup2
    rw [hrow]
    simp only [Option.some_bind]
    rw [hf "g"]
    decide

/-- Claim C6: when the total stage count has already reached the capacity
maximum of 7, the add-stage handler reports the capacity failure and
returns the state unchanged, its stage lists still holding 7 entries. -/
theorem add_stage_capacity (st : Step2State) (title nm : String) (chg : Bool)
    (h7 : total_count st = MAX_TOTAL) (hnm : pyStrip nm ≠ "") :
    add_stage st title nm chg = (st, some AddStageError.capacityExceeded) ∧
    total_count (add_stage st title nm chg).1 = 7 := by
  have heq : add_stage st title nm chg = (st, some AddStageError.capacityExceeded) := by
    unfold add_stage
    rw [if_neg hnm, if_pos (by rw [h7])]
  exact ⟨heq, by rw [heq]; exact h7⟩

/-- Witness for C6 at the concrete editor state `wSt` with 7 stages. -/
theorem add_stage_capacity_witness :
    total_count wSt = MAX_TOTAL ∧ pyStrip "X" ≠ "" ∧
    add_stage wSt "Product" "X" false = (wSt, some AddStageError.capacityExceeded) ∧
    total_count (add_stage wSt "Product" "X" false).1 = 7 :=
  ⟨by decide, by decide,
   (add_stage_capacity wSt "Product" "X" false (by decide) (by decide)).1,
   (add_stage_capacity wSt "Product" "X" false (by decide) (by decide)).2⟩

/-- Claim C7 counterexample: with stage averages 1, 1 and 2 the code
returns the two-decimal rounding 133/100, not the arithmetic mean 4/3 of
the valid stage averages that the claim states. -/
theorem overall_score_rounds_cex :
    cexOverallP.valid_stage_avgs = [("A", 1), ("B", 1), ("C", 2)] ∧
    cexOverallP.overall_score = some (133/100) ∧
    ((133 : ℚ)/100 ≠ ((1 : ℚ) + 1 + 2)/3) := by
  have hfloor : (⌊((400:ℚ)/3)⌋ : ℤ) = 133 := by
    rw [Int.floor_eq_iff]
    norm_num
  have hrhe : roundHalfEven ((400:ℚ)/3) = 133 := by
    unfold roundHalfEven
    rw [hfloor]
    rw [if_pos (by norm_num)]
  have hround : round2 ((4:ℚ)/3) = 133/100 := by
    unfold round2
    rw [show (4:ℚ)/3 * 100 = 400/3 by norm_num, hrhe]
    norm_num
  have hvalid : cexOverallP.valid_stage_avgs = [("A", 1), ("B", 1), ("C", 2)] := by
    simp [Project.valid_stage_avgs, Project.average_by_stage, cexOverallP, stage_avg,
          knownScores, List.filterMap_cons]
  have hvals : cexOverallP.average_by_stage.filterMap Prod.snd = [1, 1, 2] := by
    simp [Project.average_by_stage, cexOverallP, stage_avg, knownScores,
          List.filterMap_cons]
  have h0 : cexOverallP.overall_score =
      if cexOverallP.average_by_stage.filterMap Prod.snd = [] then none
      else some (round2 ((cexOverallP.average_by_stage.filterMap Prod.snd).sum /
        (cexOverallP.average_by_stage.filterMap Prod.snd).length)) := rfl
  have hover : cexOverallP.overall_score = some (round2 ((4:ℚ)/3)) := by
    rw [h0, hvals, if_neg (by simp)]
    norm_num
  refine ⟨hvalid, ?_, by norm_num⟩
  rw [hover, hround]

/-- Claim C7 (amended): `overall_score` is `None` exactly when every grid
cell is unknown, and otherwise equals the mean of the valid (non-NaN)
stage averages rounded to two decimal places (Python `round`, half to
even). -/
theorem overall_score_rounded_mean (p : Project) :
    (p.overall_score = none ↔ ∀ sr ∈ p.grid, ∀ fc ∈ sr.2, fc.2.score = none) ∧
    (p.valid_stage_avgs ≠ [] →
      p.overall_score = some (round2 ((p.valid_stage_avgs.map Prod.snd).sum /
        (p.valid_stage_avgs.map Prod.snd).length))) := by
  refine ⟨overall_score_eq_none_iff p, ?_⟩
  intro h
  rw [overall_score_eq_of_valid, if_neg h]

/-- Witness for the amended C7 at the concrete project `wOverallP`. -/
theorem overall_score_rounded_mean_witness :
    wOverallP.valid_stage_avgs ≠ [] ∧ wOverallP.overall_score = some 1 := by
  have hvalid : wOverallP.valid_stage_avgs = [("A", 1)] := by
    simp [Project.valid_stage_avgs, Project.average_by_stage, wOverallP, stage_avg,
          knownScores, List.filterMap_cons]
  have hne : wOverallP.valid_stage_avgs ≠ [] := by
    rw [hvalid]
    simp
  have h2 := (overall_score_rounded_mean wOverallP).2 hne
  refine ⟨hne, ?_⟩
  rw [h2, hvalid]
  have hf : (⌊((100:ℚ))⌋ : ℤ) = 100 := by
    rw [Int.floor_eq_iff]
    norm_num
  have harg : (([(("A" : String), (1:ℚ))].map Prod.snd).sum /
      ([(("A" : String), (1:ℚ))].map Prod.snd).length : ℚ) = 1 := by
    simp
  rw [harg]
  unfold round2 roundHalfEven
  rw [show (1:ℚ) * 100 = 100 by norm_num, hf]
  norm_num

/-- Claim C8: importing a document with optional fields missing succeeds
with defaults rather than failing: a missing `functional_unit` or
`core_function` yields the empty string, a grid cell record missing its
score coerces to the unknown sentinel (never a synthesized 3), and a cell
record missing its note yields the empty string. -/
theorem ofDocument_defaults (d : Document) (nm : String) (h : d.name = some nm) :
    ∃ q, Project.ofDocument d = some q ∧
      (d.functional_unit = none → q.functional_unit = "") ∧
      (d.core_function = none → q.core_function = "") ∧
      (∀ s f dc, dlookup2 (d.grid.getD []) s f = some dc →
        dlookup2 q.grid s f = some (coerce_cell dc)) ∧
      (∀ dc : DocCell, dc.score = none →
        (coerce_cell dc).score = none ∧ (coerce_cell dc).score ≠ some 3) ∧
      (∀ dc : DocCell, dc.note = none → (coerce_cell dc).note = "") := by
  refine ⟨{ name := nm,
            description := d.description.getD "",
            trl := d.trl.getD 4,
            scoping_notes := d.scoping_notes.getD "",
            lifecycle_stages := d.lifecycle_stages.getD [],
            lifecycle_changed := d.lifecycle_changed.getD [],
            selected_factors := d.selected_factors.getD [],
            grid := (d.grid.getD []).map
              (fun sr => (sr.1, sr.2.map (fun fc => (fc.1, coerce_cell fc.2)))),
            core_function := d.core_function.getD "",
            functional_unit := d.functional_unit.getD "" }, ?_, ?_, ?_, ?_, ?_, ?_⟩
  · simp only [Project.ofDocument, h]
  · intro hfu
    simp [hfu]
  · intro hcf
    simp [hcf]
  · intro s f dc hdc
    unfold dlookup2 at hdc ⊢
    cases hl : dlookup (d.grid.getD []) s with
    | none =>
      rw [hl] at hdc
      cases hdc
    | some row =>
      rw [hl] at hdc
      simp only [Option.some_bind] at hdc
      rw [dlookup_map_value (d.grid.getD [])
        (fun row => row.map (fun fc => (fc.1, coerce_cell fc.2))) s, hl]
      simp only [Option.map_some', Option.some_bind]
      rw [dlookup_map_value row coerce_cell f, hdc]
      rfl
  · intro dc hdc
    exact ⟨by simp [coerce_cell, hdc], by simp [coerce_cell, hdc]⟩
  · intro dc hdc
    simp [coerce_cell, hdc]

/-- Witness for C8 at the concrete document `wDoc`, which has a name, no
`functional_unit`, no `core_function`, and one cell with neither score nor
note. -/
theorem ofDocument_defaults_witness :
    (Project.ofDocument wDoc).isSome = true ∧
    (Project.ofDocument wDoc).map Project.functional_unit = some "" ∧
    (Project.ofDocument wDoc).map Project.core_function = some "" ∧
    (Project.ofDocument wDoc).map (fun q => dlookup2 q.grid "A" "f") =
      some (some ⟨none, ""⟩) := by
  obtain ⟨q, hq, hfu, hcf, hgrid, hsc, hnt⟩ := ofDocument_defaults wDoc "P" rfl
  have hcell := hgrid "A" "f" ⟨none, none⟩ (by decide)
  rw [hq]
  refine ⟨rfl, ?_, ?_, ?_⟩
  · simp [hfu rfl]
  · simp [hcf rfl]
  · simp only [Option.map_some']
    rw [hcell]
    rfl
